import Mathlib

/-!
# Verification of the rbxark fetch/catalog engine

A shallow embedding of the core of the rbxark program: the file-flags
state machine, the fetch-commit candidate selection, the content-addressed
object writer (including a full MD5 implementation), the worker response
classification and batch commit, the fetcher's in-flight hash set, the
ETag-to-hash conversion, and the filter-to-SQL compiler.

Strings manipulated by the Go code (ETags, hashes) are modelled as lists
of Unicode code points (`List Nat`); bytes as `Nat` values below 256;
machine integers as `Nat`/`Int` with explicit wrap-around where it matters.
-/

namespace Rbxark

/-! ## File flags

From `cmd_merge-servers.go`:
`NotFound = 0b00001`, `Exists = 0b00010`, `HasHeaders = 0b00100`,
`HasMetadata = 0b01000`, `HasContent = 0b10000`. -/

def notFoundFlag : Nat := 1
def existsFlag : Nat := 2
def hasHeadersFlag : Nat := 4
def hasMetadataFlag : Nat := 8
def hasContentFlag : Nat := 16

/-! ## Candidate selection (fetch-commit loop)

`Action.FetchContent` builds its selection query from the fragment

```
files.flags == 0 -- Select Unchecked files.
[recheck]  OR files.flags & (0) != 0  -- NotFound
[content]  OR files.flags & (17) == 0 -- !NotFound && !HasContent
```

`selectsCandidate recheck contentMode flags` is the resulting per-row
predicate: the literal masks `0` (recheck) and `17` (content mode) are
taken verbatim from the source. -/

def selectsCandidate (recheck contentMode : Bool) (flags : Nat) : Bool :=
  (flags == 0)
    || (recheck && !(flags &&& 0 == 0))
    || (contentMode && (flags &&& 17 == 0))

/-! ## MD5 (RFC 1321)

`objects.Writer` tees written bytes into a `crypto/md5` digest.  The digest
is modelled by a complete executable MD5 over byte lists. -/

/-- 32-bit truncation. -/
def w32 (x : Nat) : Nat := x % 4294967296

/-- 32-bit left rotation. -/
def rotl32 (x s : Nat) : Nat := (w32 (x <<< s)) ||| (x >>> (32 - s))

/-- Per-round left-rotation amounts (RFC 1321). -/
def md5s : List Nat :=
  [7, 12, 17, 22, 7, 12, 17, 22, 7, 12, 17, 22, 7, 12, 17, 22,
   5, 9, 14, 20, 5, 9, 14, 20, 5, 9, 14, 20, 5, 9, 14, 20,
   4, 11, 16, 23, 4, 11, 16, 23, 4, 11, 16, 23, 4, 11, 16, 23,
   6, 10, 15, 21, 6, 10, 15, 21, 6, 10, 15, 21, 6, 10, 15, 21]

/-- Per-round additive constants (RFC 1321). -/
def md5k : List Nat :=
  [0xd76aa478, 0xe8c7b756, 0x242070db, 0xc1bdceee,
   0xf57c0faf, 0x4787c62a, 0xa8304613, 0xfd469501,
   0x698098d8, 0x8b44f7af, 0xffff5bb1, 0x895cd7be,
   0x6b901122, 0xfd987193, 0xa679438e, 0x49b40821,
   0xf61e2562, 0xc040b340, 0x265e5a51, 0xe9b6c7aa,
   0xd62f105d, 0x02441453, 0xd8a1e681, 0xe7d3fbc8,
   0x21e1cde6, 0xc33707d6, 0xf4d50d87, 0x455a14ed,
   0xa9e3e905, 0xfcefa3f8, 0x676f02d9, 0x8d2a4c8a,
   0xfffa3942, 0x8771f681, 0x6d9d6122, 0xfde5380c,
   0xa4beea44, 0x4bdecfa9, 0xf6bb4b60, 0xbebfbc70,
   0x289b7ec6, 0xeaa127fa, 0xd4ef3085, 0x04881d05,
   0xd9d4d039, 0xe6db99e5, 0x1fa27cf8, 0xc4ac5665,
   0xf4292244, 0x432aff97, 0xab9423a7, 0xfc93a039,
   0x655b59c3, 0x8f0ccc92, 0xffeff47d, 0x85845dd1,
   0x6fa87e4f, 0xfe2ce6e0, 0xa3014314, 0x4e0811a1,
   0xf7537e82, 0xbd3af235, 0x2ad7d2bb, 0xeb86d391]

/-- One round step; `i` is the round index, `m` the 16 message words. -/
def md5step (m : List Nat) (st : Nat × Nat × Nat × Nat) (i : Nat) :
    Nat × Nat × Nat × Nat :=
  let (a, b, c, d) := st
  let f :=
    if i < 16 then (b &&& c) ||| ((b ^^^ 0xffffffff) &&& d)
    else if i < 32 then (d &&& b) ||| ((d ^^^ 0xffffffff) &&& c)
    else if i < 48 then b ^^^ c ^^^ d
    else c ^^^ (b ||| (d ^^^ 0xffffffff))
  let g :=
    if i < 16 then i
    else if i < 32 then (5 * i + 1) % 16
    else if i < 48 then (3 * i + 5) % 16
    else (7 * i) % 16
  let f := w32 (f + a + md5k.getD i 0 + m.getD g 0)
  (d, w32 (b + rotl32 f (md5s.getD i 0)), b, c)

/-- Decode a 64-byte block into 16 little-endian 32-bit words. -/
def md5words : List Nat → List Nat
  | b0 :: b1 :: b2 :: b3 :: rest =>
      (b0 + 256 * b1 + 65536 * b2 + 16777216 * b3) :: md5words rest
  | _ => []

/-- Compress one 64-byte block into the running state. -/
def md5compress (st : Nat × Nat × Nat × Nat) (block : List Nat) :
    Nat × Nat × Nat × Nat :=
  let m := md5words block
  let (a0, b0, c0, d0) := st
  let (a, b, c, d) := (List.range 64).foldl (md5step m) st
  (w32 (a0 + a), w32 (b0 + b), w32 (c0 + c), w32 (d0 + d))

/-- Append the RFC 1321 padding to a message given as a list of bytes. -/
def md5pad (msg : List Nat) : List Nat :=
  let len := msg.length
  let k := (120 - (len + 1) % 64) % 64
  msg ++ [0x80] ++ List.replicate k 0
    ++ ((List.range 8).map fun i => ((len * 8) >>> (8 * i)) % 256)

/-- Split a list into chunks of `n` elements; `fuel` bounds the number of
chunks (structural recursion so that the kernel can evaluate it). -/
def chunksOfF : Nat → Nat → List α → List (List α)
  | 0, _, _ => []
  | _, _, [] => []
  | fuel + 1, n, a :: l => ((a :: l).take n) :: chunksOfF fuel n ((a :: l).drop n)

/-- Split a list into chunks of `n` elements (`n > 0`). -/
def chunksOf (n : Nat) (l : List α) : List (List α) := chunksOfF l.length n l

/-- Serialize a 32-bit word as 4 little-endian bytes. -/
def md5out (x : Nat) : List Nat :=
  [x % 256, (x >>> 8) % 256, (x >>> 16) % 256, (x >>> 24) % 256]

/-- MD5 digest (16 bytes) of a byte list. -/
def md5 (msg : List Nat) : List Nat :=
  let (a, b, c, d) :=
    (chunksOf 64 (md5pad msg)).foldl md5compress
      (0x67452301, 0xefcdab89, 0x98badcfe, 0x10325476)
  md5out a ++ md5out b ++ md5out c ++ md5out d

/-- Code point of the lowercase hex digit for `d < 16`. -/
def hexDigit (d : Nat) : Nat := if d < 10 then 48 + d else 87 + d

/-- Lowercase hexadecimal encoding (as code points) of a byte list. -/
def hexEncode (bytes : List Nat) : List Nat :=
  bytes.flatMap fun b => [hexDigit (b / 16), hexDigit (b % 16)]

/-- Lowercase-hex MD5 of a byte list, as a list of code points. -/
def md5hex (msg : List Nat) : List Nat := hexEncode (md5 msg)

/-- Code points of a string literal (helper for concrete inputs). -/
def codes (s : String) : List Nat := s.toList.map Char.toNat

/-! ## objects: hashes and the on-disk store

From the `objects` package: `IsHash`, `HashFromETag`, `Exists`, `Stat`.
Strings are lists of code points; relevant code points:
`"` = 34, `-` = 45, `/` = 47, `w` = 119, `W` = 87. -/

/-- ASCII lowercasing of one code point (`strings.ToLower` on the
characters this pipeline distinguishes). -/
def toLowerN (n : Nat) : Nat := if 65 ≤ n ∧ n ≤ 90 then n + 32 else n

/-- `strings.ToLower`. -/
def lowerL (l : List Nat) : List Nat := l.map toLowerN

/-- `strings.TrimPrefix(s, "w/")`. -/
def stripPrefixWSlash : List Nat → List Nat
  | a :: b :: rest => if a = 119 ∧ b = 47 then rest else a :: b :: rest
  | l => l

/-- `strings.Trim(s, "\"")`: remove every leading and trailing quote. -/
def trimQuotes (l : List Nat) : List Nat :=
  ((l.dropWhile (fun c => c == 34)).reverse.dropWhile (fun c => c == 34)).reverse

/-- `if i := strings.Index(s, "-"); i >= 0 { s = s[:i] }`. -/
def cutDash (l : List Nat) : List Nat := l.takeWhile (fun c => !(c == 45))

/-- `objects.IsHash`: 32 characters, each a digit or a lowercase hex letter. -/
def isHashL (l : List Nat) : Bool :=
  l.length == 32 && l.all (fun c => (48 ≤ c && c ≤ 57) || (97 ≤ c && c ≤ 102))

/-- `objects.HashFromETag` (live variant, with the weak-validator strip):
lowercase, trim the `w/` prefix, trim quotes, cut at the first `-`,
validate. -/
def hashFromETag (etag : List Nat) : List Nat :=
  let e := cutDash (trimQuotes (stripPrefixWSlash (lowerL etag)))
  if isHashL e then e else []

/-- Modelled from the spec's wording of `hash_from_etag` (§4.1): "strip
optional `W/` weak prefix case-insensitively, trim surrounding double
quotes, take the prefix before the first `-` if any, lowercase,
validate — empty string on failure". -/
def stripWeakPrefixCI : List Nat → List Nat
  | a :: b :: rest => if (a = 119 ∨ a = 87) ∧ b = 47 then rest else a :: b :: rest
  | l => l

/-- The spec's `hash_from_etag`, steps in the spec's order. -/
def hashFromETagSpec (etag : List Nat) : List Nat :=
  let e := lowerL (cutDash (trimQuotes (stripWeakPrefixCI etag)))
  if isHashL e then e else []

/-- The object store: a finite map from hash (code points of the final
file name `<root>/<hash[0:2]>/<hash>`) to the stored file's size. -/
abbrev Store := List (List Nat × Nat)

/-- The empty object store. -/
def emptyStore : Store := []

/-- `objects.Exists`: stat the mapped path (hash must be valid). -/
def storeExists (st : Store) (hash : List Nat) : Bool :=
  isHashL hash && (st.lookup hash).isSome

/-- `objects.Stat`: size and name of the stored object, or absent. -/
def storeStat (st : Store) (hash : List Nat) : Option Nat :=
  if isHashL hash then st.lookup hash else none

/-- Place an object in the store (the final rename in `Writer.Close`). -/
def storePut (st : Store) (hash : List Nat) (size : Nat) : Store :=
  (hash, size) :: st

/-! ## objects.Writer

The streaming writer tees bytes into a temp file and an MD5 digest.
`opened` tracks whether any `Write` call has occurred (the temp file is
created lazily by the first `Write`); `digest` is the byte sequence fed to
the MD5 state; `size` counts the bytes written to the temp file; `expsize`
is the optional expected size (-1 when unset). -/

structure WriterState where
  opened : Bool
  digest : List Nat
  size : Nat
  expsize : Int
deriving DecidableEq

/-- `objects.NewWriter` (non-empty root). -/
def writerInit : WriterState := ⟨false, [], 0, -1⟩

/-- `Writer.Write`: the whole slice goes to the digest; the size counter
advances by the bytes actually written to the file (modelled as a full
successful write). -/
def writerWrite (w : WriterState) (b : List Nat) : WriterState :=
  { w with opened := true, digest := w.digest ++ b, size := w.size + b.length }

/-- Stream a sequence of chunks through `Writer.Write`. -/
def writerWriteAll (w : WriterState) (chunks : List (List Nat)) : WriterState :=
  chunks.foldl writerWrite w

/-- `Writer.ExpectSize`. -/
def writerExpectSize (w : WriterState) (n : Int) : WriterState :=
  { w with expsize := n }

/-- Result of `Writer.Close`: size and hash are always computed; `store` is
the object store after the close (the rename, when one happens). -/
structure CloseResult where
  size : Nat
  hash : List Nat
  err : Option String
  store : Store
deriving DecidableEq

/-- `Writer.Close`: compute the hash first; fail on a size mismatch (temp
file kept, store untouched); if no `Write` ever happened there is no temp
file and nothing is placed in the store; if an object with this hash
already exists the temp file is removed; otherwise the temp file is
renamed into the store. -/
def writerClose (w : WriterState) (st : Store) : CloseResult :=
  let hash := md5hex w.digest
  if 0 ≤ w.expsize ∧ (w.size : Int) ≠ w.expsize then
    ⟨w.size, hash, some "size mismatch", st⟩
  else if !w.opened then
    ⟨w.size, hash, none, st⟩
  else if (st.lookup hash).isSome then
    ⟨w.size, hash, none, st⟩
  else
    ⟨w.size, hash, none, storePut st hash w.size⟩

/-! ## Fetcher: in-flight hash set and content streaming

From `fetcher.go`: `HashChecker.Check` is an atomic test-and-insert;
`Fetcher.FetchContent` on a 2xx GET consults the ETag-derived hash against
the in-flight set and the on-disk store before streaming the body into the
writer. -/

/-- The in-flight hash set. -/
abbrev HashStore := List (List Nat)

/-- `HashChecker.Check`: returns whether the hash was present, inserting it
if it was not. -/
def hashStoreCheck (h : HashStore) (hash : List Nat) :
    Bool × HashStore :=
  if hash ∈ h then (true, h) else (false, hash :: h)

/-- The streaming decision of `Fetcher.FetchContent`: which body chunks
reach the writer, and the in-flight set afterwards.  `contentMode` is
`w != nil` (a GET with a sink); on non-2xx or in headers mode nothing is
streamed.  On 2xx, an ETag-derived hash short-circuits via the in-flight
set, then via the on-disk store; otherwise the body is streamed. -/
def fetchContentStream (contentMode : Bool) (inflight : HashStore)
    (store : Store) (status : Nat) (etag : List Nat)
    (body : List (List Nat)) : List (List Nat) × HashStore :=
  if !contentMode || decide (status < 200) || decide (300 ≤ status) then
    ([], inflight)
  else
    let h := hashFromETag etag
    if h ≠ [] then
      let (dup, inflight') := hashStoreCheck inflight h
      if dup then ([], inflight')
      else if storeExists store h then ([], inflight')
      else (body, inflight')
    else (body, inflight)

/-! ## Worker classification (`runFetchContentWorker`) -/

/-- Query actions accumulated by a worker (`qHeaders`, `qHeaderStatus`,
`qMetadata`). -/
def qHeaders : Nat := 1
def qHeaderStatus : Nat := 2
def qMetadata : Nat := 4

/-- A candidate row handed to a worker. -/
structure ReqEntry where
  id : Nat
  flags : Nat
deriving DecidableEq

/-- The HTTP outcome a worker observes. -/
structure RespData where
  transportErr : Option String
  status : Nat
  contentLength : Option Int
  lastModified : Option Int
  contentType : Option (List Nat)
  etag : Option (List Nat)
  body : List (List Nat)
deriving DecidableEq

/-- A worker's response slot (`respEntry`). -/
structure RespEntryM where
  err : Option String := none
  id : Nat := 0
  flags : Nat := 0
  qAction : Nat := 0
  respStatus : Nat := 0
  contentLength : Option Int := none
  lastModified : Option Int := none
  contentType : Option (List Nat) := none
  etag : Option (List Nat) := none
  hash : List Nat := []
  size : Nat := 0
deriving DecidableEq

/-- `flags &^= NotFound` on a uint8 value. -/
def clearNotFound (f : Nat) : Nat := f &&& 254

/-- `runFetchContentWorker`: classify one response and update the object
store.  The in-flight hash set is allocated afresh inside the worker, as
in the source (`hashes = &fetch.HashStore{}`). -/
def runWorker (contentMode : Bool) (store : Store) (req : ReqEntry)
    (resp : RespData) : RespEntryM × Store :=
  match resp.transportErr with
  | some msg => ({ err := some msg }, store)
  | none =>
    let inflight : HashStore := []
    let chunks := (fetchContentStream contentMode inflight store
      resp.status (resp.etag.getD []) resp.body).1
    let e0 : RespEntryM :=
      { id := req.id, flags := req.flags % 256, respStatus := resp.status }
    if 200 ≤ resp.status ∧ resp.status < 300 then
      let f1 := clearNotFound (e0.flags ||| (existsFlag ||| hasHeadersFlag))
      let e1 : RespEntryM :=
        { e0 with
            flags := f1, qAction := qHeaders,
            contentLength := resp.contentLength,
            lastModified := resp.lastModified,
            contentType := resp.contentType,
            etag := resp.etag }
      if contentMode then
        match storeStat store (hashFromETag (resp.etag.getD [])) with
        | some sz =>
            ({ e1 with
                flags := f1 ||| (hasMetadataFlag ||| hasContentFlag),
                qAction := qHeaders ||| qMetadata,
                hash := lowerL (hashFromETag (resp.etag.getD [])),
                size := sz }, store)
        | none =>
            let w0 := writerWriteAll writerInit chunks
            let w1 := match resp.contentLength with
                      | some v => writerExpectSize w0 v
                      | none => w0
            let r := writerClose w1 store
            match r.err with
            | some msg => ({ err := some msg }, r.store)
            | none =>
                ({ e1 with
                    flags := f1 ||| (hasMetadataFlag ||| hasContentFlag),
                    qAction := qHeaders ||| qMetadata,
                    hash := r.hash, size := r.size }, r.store)
      else (e1, store)
    else
      let f1 := e0.flags ||| notFoundFlag
      if resp.status ≠ 403 then
        ({ e0 with flags := f1 ||| hasHeadersFlag, qAction := qHeaderStatus },
          store)
      else
        ({ e0 with flags := f1 }, store)

/-! ## Catalog tables and the batch commit -/

/-- A row of the `headers` table. -/
structure HeaderRow where
  status : Nat
  contentLength : Option Int := none
  lastModified : Option Int := none
  contentType : Option (List Nat) := none
  etag : Option (List Nat) := none
deriving DecidableEq

/-- Replace-or-insert into an association list keyed by rowid. -/
def setAssoc (l : List (Nat × α)) (k : Nat) (v : α) : List (Nat × α) :=
  match l with
  | [] => [(k, v)]
  | (k', v') :: rest =>
      if k' = k then (k, v) :: rest else (k', v') :: setAssoc rest k v

/-- The catalog state touched by the fetch-commit loop. -/
structure Db where
  flags : List (Nat × Nat)
  headers : List (Nat × HeaderRow)
  metadata : List (Nat × (Nat × List Nat))
deriving DecidableEq

/-- `INSERT INTO headers(file, status) ... ON CONFLICT (file) DO UPDATE SET
status = ?`: a fresh row carries only the status (other columns NULL); a
conflicting row has only its status column updated. -/
def upsertHeaderStatus (t : List (Nat × HeaderRow)) (id status : Nat) :
    List (Nat × HeaderRow) :=
  match t.lookup id with
  | some r => setAssoc t id { r with status := status }
  | none => setAssoc t id { status := status }

/-- The statements executed for one response inside the transaction:
the unconditional flags UPDATE, then the header upsert selected by
`qAction`, then the metadata upsert. -/
def applyEntry (db : Db) (e : RespEntryM) : Db :=
  let db1 := { db with flags := setAssoc db.flags e.id e.flags }
  let db2 :=
    if e.qAction &&& qHeaders ≠ 0 then
      { db1 with headers := setAssoc db1.headers e.id
                   ⟨e.respStatus, e.contentLength, e.lastModified,
                     e.contentType, e.etag⟩ }
    else if e.qAction &&& qHeaderStatus ≠ 0 then
      { db1 with headers := upsertHeaderStatus db1.headers e.id e.respStatus }
    else db1
  if e.qAction &&& qMetadata ≠ 0 then
    { db2 with metadata := setAssoc db2.metadata e.id (e.size, e.hash) }
  else db2

/-- The commit phase of one batch: walk the response slots in order,
returning the first worker error if there is one (the transaction is then
never committed), otherwise the state with every response applied. -/
def commitBatch (db : Db) : List RespEntryM → Except String Db
  | [] => .ok db
  | e :: rest =>
    match e.err with
    | some msg => .error msg
    | none => commitBatch (applyEntry db e) rest

/-- One batch of `Action.FetchContent` seen from the database: an
uncommitted transaction has no effect, so on a worker error the loop
returns the error and the catalog keeps its previous state. -/
def fetchCommitStep (db : Db) (resps : List RespEntryM) :
    Option String × Db :=
  match commitBatch db resps with
  | .ok db' => (none, db')
  | .error msg => (some msg, db)

/-! ## Build discovery (`Action.FetchBuilds`)

The per-server dedup step:

```
sort.Slice(builds, func(i, j int) bool { return builds[i].Hash < builds[j].Hash })
j := 0
for i := 1; i < len(builds); i++ {
    if builds[j] != builds[i] { j++; builds[j] = builds[i] }
}
builds = builds[:j+1]
```

The final reslice `builds[:j+1]` is modelled as `none` (a Go panic) when
`j + 1` exceeds the slice's capacity, which happens exactly on the empty
(nil) slice. -/

structure BuildR where
  hash : String
  btype : String
  time : Int
  version : String
deriving DecidableEq

instance : Inhabited BuildR := ⟨⟨"", "", 0, ""⟩⟩

/-- Insertion into a list sorted by hash. -/
def insertByHash (b : BuildR) : List BuildR → List BuildR
  | [] => [b]
  | a :: l => if a.hash < b.hash then a :: insertByHash b l else b :: a :: l

/-- `sort.Slice(builds, ...)` sorting by hash. -/
def sortByHash (l : List BuildR) : List BuildR := l.foldr insertByHash []

/-- The in-place dedup loop over the sorted slice; `fuel` bounds the
remaining iterations (structural recursion). -/
def dedupLoopF : Nat → List BuildR → Nat → Nat → List BuildR × Nat
  | 0, arr, j, _ => (arr, j)
  | fuel + 1, arr, j, i =>
    if i < arr.length then
      if arr.getD j default ≠ arr.getD i default then
        dedupLoopF fuel (arr.set (j + 1) (arr.getD i default)) (j + 1) (i + 1)
      else
        dedupLoopF fuel arr j (i + 1)
    else (arr, j)

/-- The sort-and-dedup step of `Action.FetchBuilds`.  `none` models the
panic of the final `builds[:j+1]` reslice when it is out of range. -/
def fetchBuildsDedup (builds : List BuildR) : Option (List BuildR) :=
  let arr := sortByHash builds
  let (arr', j) := dedupLoopF arr.length arr 0 1
  if j + 1 ≤ arr'.length then some (arr'.take (j + 1)) else none

/-! ## Filter compiler (`filter.go`)

The expression AST produced by the parser, and `asQuery` /
`Filter.AsQuery` compiling it to a SQL fragment with parameters. -/

inductive FBinOp
  | land | lor | eql | neq | lss | gtr | leq | geq
deriving DecidableEq

inductive FUnOp
  | fnot
  /-- Any other unary operator the Go parser may produce. -/
  | other
deriving DecidableEq

inductive FLitKind
  | strLit
  /-- INT, FLOAT, IMAG, CHAR literals. -/
  | otherLit
deriving DecidableEq

inductive FExpr
  | binary (op : FBinOp) (x y : FExpr)
  | paren (x : FExpr)
  | unary (op : FUnOp) (x : FExpr)
  | ident (name : String)
  | lit (kind : FLitKind) (value : String)
  /-- Any `ast.Expr` node kind the `asQuery` type switch has no case for
  (`CallExpr`, `SelectorExpr`, `IndexExpr`, `StarExpr`, ...), carrying its
  child expressions.  The Go switch has no default, so such a node falls
  through: nothing is emitted, no error is raised, and the children are
  never visited. -/
  | unhandled (children : List FExpr)

/-- The SQL text for a supported binary operator; `none` for the
commented-out comparison operators `<`, `>`, `<=`, `>=`. -/
def binOpSql : FBinOp → Option String
  | .land => some "AND "
  | .lor => some "OR "
  | .eql => some "== "
  | .neq => some "!= "
  | _ => none

/-- `strconv.Unquote` restricted to plain double-quoted literals (escape
processing is irrelevant to the compiled shape). -/
def unquoteLit (s : String) : Option String :=
  let cs := s.toList
  match cs with
  | '"' :: rest =>
      if rest ≠ [] ∧ rest.getLast? = some '"' then
        some (String.mk (rest.dropLast))
      else none
  | _ => none

/-- The builder state of `asQuery`: the SQL text, the parameter vector,
and the set of referenced identifiers. -/
structure QState where
  sql : String
  params : List String
  used : List String
deriving DecidableEq

/-- `asQuery`: compile one expression, appending to the builder state.
`vars` is the per-domain allow-list (`none` when `AllowVars` was never
called for the domain). -/
def asQuery (vars : Option (List String)) : FExpr → QState → Except String QState
  | .binary op x y, st =>
    match asQuery vars x st with
    | .error m => .error m
    | .ok st1 =>
      match binOpSql op with
      | none => .error "unexpected operator"
      | some o =>
        asQuery vars y { st1 with sql := st1.sql ++ o }
  | .paren x, st =>
    match asQuery vars x { st with sql := st.sql ++ "( " } with
    | .error m => .error ("paren expr: " ++ m)
    | .ok st1 => .ok { st1 with sql := st1.sql ++ ") " }
  | .unary op x, st =>
    match op with
    | .other => .error "unexpected operator"
    | .fnot =>
      asQuery vars x { st with sql := st.sql ++ "NOT " }
  | .ident name, st =>
    if name = "true" then .ok { st with sql := st.sql ++ "TRUE " }
    else if name = "false" then .ok { st with sql := st.sql ++ "FALSE " }
    else if name = "nil" then .ok { st with sql := st.sql ++ "NULL " }
    else
      match vars with
      | some vs =>
        if name ∈ vs then
          .ok { st with
                  sql := st.sql ++ "_" ++ name ++ " ",
                  used := if name ∈ st.used then st.used else st.used ++ [name] }
        else .error ("unexpected identifier " ++ name)
      | none =>
        .ok { st with
                sql := st.sql ++ "_" ++ name ++ " ",
                used := if name ∈ st.used then st.used else st.used ++ [name] }
  | .lit kind value, st =>
    match kind with
    | .strLit =>
      match unquoteLit value with
      | some v => .ok { st with sql := st.sql ++ "? ", params := st.params ++ [v] }
      | none => .error "string literal"
    | .otherLit => .error ("unexpected literal " ++ value)
  | .unhandled _, st => .ok st

/-- One configured rule: `exclude` flag plus the parsed expression. -/
structure FRule where
  exclude : Bool
  expr : FExpr

/-- The compiled query of `Filter.AsQuery`. -/
structure FQuery where
  expr : String
  params : List String
  vars : List String
deriving DecidableEq

/-- The opening-parenthesis prefix: one `( ` per exclude rule after the
first rule. -/
def excludeOpeners : List FRule → String
  | [] => ""
  | r :: rest => (if r.exclude then "( " else "") ++ excludeOpeners rest

/-- The text written before a rule's expression: the separator for rules
after the first (`) AND ` before an exclude, `OR ` before an include),
`NOT ` for an exclude, and the opening `( `. -/
def ruleStart (first exclude : Bool) (st : QState) : QState :=
  let st1 :=
    if first then st
    else if exclude then { st with sql := st.sql ++ ") AND " }
    else { st with sql := st.sql ++ "OR " }
  let st2 := if exclude then { st1 with sql := st1.sql ++ "NOT " } else st1
  { st2 with sql := st2.sql ++ "( " }

/-- The per-rule loop of `Filter.AsQuery`. -/
def asQueryRulesLoop (vars : Option (List String)) (first : Bool)
    (st : QState) : List FRule → Except String QState
  | [] => .ok st
  | r :: rest =>
    match asQuery vars r.expr (ruleStart first r.exclude st) with
    | .error m => .error m
    | .ok st3 =>
      asQueryRulesLoop vars false { st3 with sql := st3.sql ++ ") " } rest

/-- `Filter.AsQuery` for one domain whose rule set is `rules` and whose
allow-list is `vars`: an empty rule set compiles to the empty query; on
any rule error the zero `FQuery` is returned alongside the error (modelled
by `Except.error`: no SQL fragment is produced). -/
def filterAsQuery (vars : Option (List String)) (rules : List FRule) :
    Except String FQuery :=
  match rules with
  | [] => .ok ⟨"", [], []⟩
  | _ :: rest =>
    let pre := "AND ( " ++ excludeOpeners rest
    match asQueryRulesLoop vars true ⟨pre, [], []⟩ rules with
    | .error m => .error m
    | .ok st => .ok ⟨st.sql ++ ")", st.params, st.used⟩

mutual

/-- Whether an expression references an identifier outside the allow-list,
anywhere in its tree (the literals `true`, `false`, `nil` are keywords,
not identifiers). -/
def hasBadIdent (vs : List String) : FExpr → Bool
  | .binary _ x y => hasBadIdent vs x || hasBadIdent vs y
  | .paren x => hasBadIdent vs x
  | .unary _ x => hasBadIdent vs x
  | .ident name =>
      !(name = "true" || name = "false" || name = "nil") && !(decide (name ∈ vs))
  | .lit _ _ => false
  | .unhandled children => hasBadIdentList vs children

/-- `hasBadIdent` over the children of an unhandled node. -/
def hasBadIdentList (vs : List String) : List FExpr → Bool
  | [] => false
  | c :: rest => hasBadIdent vs c || hasBadIdentList vs rest

end

mutual

/-- Whether an expression uses one of the unsupported comparison
operators `<`, `>`, `<=`, `>=`, anywhere in its tree. -/
def hasUnsupportedOp : FExpr → Bool
  | .binary op x y =>
      (op = FBinOp.lss || op = FBinOp.gtr || op = FBinOp.leq || op = FBinOp.geq)
        || hasUnsupportedOp x || hasUnsupportedOp y
  | .paren x => hasUnsupportedOp x
  | .unary _ x => hasUnsupportedOp x
  | .ident _ => false
  | .lit _ _ => false
  | .unhandled children => hasUnsupportedOpList children

/-- `hasUnsupportedOp` over the children of an unhandled node. -/
def hasUnsupportedOpList : List FExpr → Bool
  | [] => false
  | c :: rest => hasUnsupportedOp c || hasUnsupportedOpList rest

end

/-- Whether an expression contains a node kind the compiler's type switch
does not handle (on such expressions the compiler silently accepts and
emits nothing). -/
def hasUnhandled : FExpr → Bool
  | .binary _ x y => hasUnhandled x || hasUnhandled y
  | .paren x => hasUnhandled x
  | .unary _ x => hasUnhandled x
  | .ident _ => false
  | .lit _ _ => false
  | .unhandled _ => true

/-- Whether an `Except` result is an error. -/
def isErr : Except String α → Bool
  | .error _ => true
  | .ok _ => false

/-! ## Batch-level streaming (for the in-flight set) -/

/-- How many of two same-batch workers stream body bytes to disk, as the
code stands: each call to `runFetchContentWorker` allocates its own fresh
in-flight set (`hashes = &fetch.HashStore{}`), and neither worker has
committed, so both observe the same object store. -/
def batchPerWorkerStreamCount (store : Store) (status : Nat)
    (etag : List Nat) (body : List (List Nat)) : Nat :=
  (if !(fetchContentStream true [] store status etag body).1.isEmpty
     then 1 else 0)
    + (if !(fetchContentStream true [] store status etag body).1.isEmpty
         then 1 else 0)

/-- Modelled from the spec: "Workers share the in-flight-hash set for the
current batch" — the same two responses run against one shared set, the
second observing the set the first left behind. -/
def batchSharedStreamCount (store : Store) (status : Nat)
    (etag : List Nat) (body : List (List Nat)) : Nat :=
  let r1 := fetchContentStream true [] store status etag body
  let r2 := fetchContentStream true r1.2 store status etag body
  (if !r1.1.isEmpty then 1 else 0) + (if !r2.1.isEmpty then 1 else 0)

/-- Spec invariant 1 as a decidable check: every file row whose flags have
`HasContent` has a metadata row whose MD5 names an object in the store of
exactly the metadata's size. -/
def hasContentInvariantB (db : Db) (st : Store) : Bool :=
  db.flags.all fun p =>
    (p.2 &&& hasContentFlag == 0)
      || (match db.metadata.lookup p.1 with
          | some m => st.lookup m.2 == some m.1
          | none => false)

end Rbxark

/-- C1: the claim states that with `recheck` set, every file whose flags have
the NotFound bit (1) set is selected as a candidate.  The code's recheck
disjunct is `files.flags & (0) != 0` (mask 0, though the adjacent comment
says NotFound), which never holds, so `recheck` adds no candidates at all:
selection with `recheck` equals selection without it, and the NotFound-only
file (flags = 1) is never selected in either mode. -/
theorem C1_recheck_clause_never_selects :
    (∀ recheck contentMode flags,
        Rbxark.selectsCandidate recheck contentMode flags
          = Rbxark.selectsCandidate false contentMode flags)
      ∧ Rbxark.selectsCandidate true false 1 = false
      ∧ Rbxark.selectsCandidate true true 1 = false := by
  refine ⟨?_, by decide, by decide⟩
  intro recheck contentMode flags
  simp [Rbxark.selectsCandidate, Nat.and_zero]

/-- C6: the claim states that the dedup step of build discovery is total,
including on a stream with zero build records.  On the empty stream the
code reslices `builds[:j+1]` with `j = 0` over a nil slice, which panics
(modelled by `none`); a nonempty stream is deduplicated fine. -/
theorem C6_dedup_panics_on_empty_stream :
    Rbxark.fetchBuildsDedup [] = none
      ∧ Rbxark.fetchBuildsDedup [⟨"version-aaaa", "WindowsPlayer", 0, "0.1"⟩]
          = some [⟨"version-aaaa", "WindowsPlayer", 0, "0.1"⟩] := by
  exact ⟨rfl, rfl⟩

/-- C3: the claim states that all workers of one batch consult a single
shared in-flight hash set, so at most one of two same-ETag 2xx responses
streams body bytes.  In the code each worker allocates its own fresh
`fetch.HashStore{}`, whose test-and-insert therefore never reports a
duplicate, and both workers of a two-response batch (same ETag hash, hash
not yet on disk) stream their bodies; with a genuinely shared set (the
spec's reading) only the first would stream. -/
theorem C3_inflight_set_not_shared :
    (∀ h, (Rbxark.hashStoreCheck [] h).1 = false)
      ∧ Rbxark.batchPerWorkerStreamCount Rbxark.emptyStore 200
          (Rbxark.codes "\"0123456789abcdef0123456789abcdef\"") [[1, 2]] = 2
      ∧ Rbxark.batchSharedStreamCount Rbxark.emptyStore 200
          (Rbxark.codes "\"0123456789abcdef0123456789abcdef\"") [[1, 2]] = 1 := by
  refine ⟨?_, by decide, by decide⟩
  intro h
  simp [Rbxark.hashStoreCheck]

set_option maxRecDepth 8000 in
/-- C2: the claim states that after a committed batch every file with
`HasContent` has an object in the store at its metadata MD5 with the
metadata's size, including for a 2xx response with an empty body.  For a
2xx response with zero body bytes the writer never opens a temp file, so
`Writer.Close` succeeds without placing anything in the store, yet the
worker still sets `HasMetadata|HasContent` and the batch commits: flags
become 30 (`Exists|HasHeaders|HasMetadata|HasContent`), the metadata row
records the MD5 of the empty input, and the store holds no such object —
spec invariant 1 is violated.  The response below is
`⟨transportErr, status, contentLength, lastModified, contentType, etag,
body⟩` with status 200, content-length 0, the empty-input ETag and an
empty body, against the empty store and a catalog holding file 1 with
flags 0. -/
theorem C2_empty_body_sets_hascontent_without_object :
    (Rbxark.runWorker true Rbxark.emptyStore ⟨1, 0⟩
        ⟨none, 200, some 0, none, none,
          some (Rbxark.codes "\"d41d8cd98f00b204e9800998ecf8427e\""),
          []⟩).1.err = none
      ∧ (Rbxark.runWorker true Rbxark.emptyStore ⟨1, 0⟩
          ⟨none, 200, some 0, none, none,
            some (Rbxark.codes "\"d41d8cd98f00b204e9800998ecf8427e\""),
            []⟩).1.flags &&& Rbxark.hasContentFlag ≠ 0
      ∧ (Rbxark.runWorker true Rbxark.emptyStore ⟨1, 0⟩
          ⟨none, 200, some 0, none, none,
            some (Rbxark.codes "\"d41d8cd98f00b204e9800998ecf8427e\""),
            []⟩).1.hash = Rbxark.codes "d41d8cd98f00b204e9800998ecf8427e"
      ∧ (Rbxark.runWorker true Rbxark.emptyStore ⟨1, 0⟩
          ⟨none, 200, some 0, none, none,
            some (Rbxark.codes "\"d41d8cd98f00b204e9800998ecf8427e\""),
            []⟩).2 = Rbxark.emptyStore
      ∧ (Rbxark.fetchCommitStep ⟨[(1, 0)], [], []⟩
          [(Rbxark.runWorker true Rbxark.emptyStore ⟨1, 0⟩
              ⟨none, 200, some 0, none, none,
                some (Rbxark.codes "\"d41d8cd98f00b204e9800998ecf8427e\""),
                []⟩).1]).1 = none
      ∧ (Rbxark.fetchCommitStep ⟨[(1, 0)], [], []⟩
          [(Rbxark.runWorker true Rbxark.emptyStore ⟨1, 0⟩
              ⟨none, 200, some 0, none, none,
                some (Rbxark.codes "\"d41d8cd98f00b204e9800998ecf8427e\""),
                []⟩).1]).2.flags.lookup 1 = some 30
      ∧ Rbxark.hasContentInvariantB
          (Rbxark.fetchCommitStep ⟨[(1, 0)], [], []⟩
            [(Rbxark.runWorker true Rbxark.emptyStore ⟨1, 0⟩
                ⟨none, 200, some 0, none, none,
                  some (Rbxark.codes "\"d41d8cd98f00b204e9800998ecf8427e\""),
                  []⟩).1]).2
          Rbxark.emptyStore = false := by
  decide

/-- A batch whose response slots contain a worker error never reaches the
commit: walking the slots hits the error first. -/
theorem commitBatch_error_of_err (resps : List Rbxark.RespEntryM) :
    ∀ db : Rbxark.Db, (∃ e ∈ resps, e.err ≠ none) →
      ∃ msg, Rbxark.commitBatch db resps = Except.error msg := by
  induction resps with
  | nil =>
    intro db h
    rcases h with ⟨e, he, _⟩
    cases he
  | cons e rest ih =>
    intro db h
    cases hE : e.err with
    | some m => exact ⟨m, by simp [Rbxark.commitBatch, hE]⟩
    | none =>
      rcases h with ⟨e', he', herr⟩
      rcases List.mem_cons.mp he' with rfl | hmem
      · exact absurd hE herr
      · rcases ih (Rbxark.applyEntry db e) ⟨e', hmem, herr⟩ with ⟨msg, hm⟩
        exact ⟨msg, by simp [Rbxark.commitBatch, hE, hm]⟩

/-- C7: if any response slot of a batch holds a worker error, the loop
returns an error and the transaction is never committed, so the catalog
state is unchanged by the batch. -/
theorem C7_worker_error_aborts_batch (db : Rbxark.Db)
    (resps : List Rbxark.RespEntryM) (h : ∃ e ∈ resps, e.err ≠ none) :
    (Rbxark.fetchCommitStep db resps).1 ≠ none
      ∧ (Rbxark.fetchCommitStep db resps).2 = db := by
  rcases commitBatch_error_of_err resps db h with ⟨msg, hm⟩
  unfold Rbxark.fetchCommitStep
  rw [hm]
  exact ⟨by simp, rfl⟩

/-- Witness for C7 at a concrete one-slot batch holding a transport error. -/
theorem C7_worker_error_aborts_batch_witness :
    (∃ e ∈ [({ err := some "dial tcp: timeout" } : Rbxark.RespEntryM)],
        e.err ≠ none)
      ∧ ((Rbxark.fetchCommitStep ⟨[(1, 0)], [], []⟩
            [{ err := some "dial tcp: timeout" }]).1 ≠ none
          ∧ (Rbxark.fetchCommitStep ⟨[(1, 0)], [], []⟩
              [{ err := some "dial tcp: timeout" }]).2 = ⟨[(1, 0)], [], []⟩) := by
  refine ⟨⟨_, List.mem_singleton.mpr rfl, by decide⟩, ?_⟩
  exact C7_worker_error_aborts_batch _ _ ⟨_, List.mem_singleton.mpr rfl, by decide⟩

/-- The digest accumulated by the writer is the concatenation of all
written chunks. -/
theorem writerWriteAll_digest (chunks : List (List Nat)) :
    ∀ w : Rbxark.WriterState,
      (Rbxark.writerWriteAll w chunks).digest = w.digest ++ chunks.flatten := by
  induction chunks with
  | nil => intro w; simp [Rbxark.writerWriteAll]
  | cons b bs ih =>
    intro w
    simp [Rbxark.writerWriteAll] at ih ⊢
    rw [ih (Rbxark.writerWrite w b)]
    simp [Rbxark.writerWrite]

/-- `Writer.Close` always reports the digest of the written bytes, on
every path including the error ones. -/
theorem writerClose_hash (w : Rbxark.WriterState) (st : Rbxark.Store) :
    (Rbxark.writerClose w st).hash = Rbxark.md5hex w.digest := by
  unfold Rbxark.writerClose
  split_ifs
  any_goals rfl
  all_goals simp only []
  all_goals split_ifs <;> rfl

/-- C9: for every sequence of chunks written through the object writer,
finalize returns the lowercase-hex MD5 of the concatenation of those
chunks — with or without an expected size set — and for zero chunks this
is the MD5 of the empty input. -/
theorem C9_finalize_hash_is_md5_of_chunks :
    (∀ (chunks : List (List Nat)) (st : Rbxark.Store) (exp : Int),
        (Rbxark.writerClose (Rbxark.writerWriteAll Rbxark.writerInit chunks)
            st).hash = Rbxark.md5hex chunks.flatten
          ∧ (Rbxark.writerClose
                (Rbxark.writerExpectSize
                  (Rbxark.writerWriteAll Rbxark.writerInit chunks) exp)
                st).hash = Rbxark.md5hex chunks.flatten)
      ∧ Rbxark.md5hex [] = Rbxark.codes "d41d8cd98f00b204e9800998ecf8427e" := by
  refine ⟨fun chunks st exp => ⟨?_, ?_⟩, by decide⟩
  · rw [writerClose_hash, writerWriteAll_digest]
    simp [Rbxark.writerInit]
  · rw [writerClose_hash]
    show Rbxark.md5hex (Rbxark.writerWriteAll Rbxark.writerInit chunks).digest
      = Rbxark.md5hex chunks.flatten
    rw [writerWriteAll_digest]
    simp [Rbxark.writerInit]


/-- A single-bit mask test in terms of `Nat.testBit`. -/
theorem and_two_pow_ne_zero_iff (n i : Nat) :
    n &&& 2 ^ i ≠ 0 ↔ n.testBit i = true := by
  rw [Nat.and_two_pow]
  cases h : n.testBit i <;> simp [h, Nat.pow_eq_zero]

/-- Reducing a uint8 conversion keeps the low bits. -/
theorem testBit_mod_256 (x i : Nat) (h : i < 8) :
    (x % 256).testBit i = x.testBit i := by
  rw [show (256 : Nat) = 2 ^ 8 from rfl, Nat.testBit_mod_two_pow]
  simp [h]

/-- C8: every successful worker classification preserves the Exists bit of
the incoming flags; since errored slots abort the batch before it commits,
every flags value written by a commit keeps Exists. -/
theorem C8_exists_bit_preserved (cm : Bool) (store : Rbxark.Store)
    (req : Rbxark.ReqEntry) (resp : Rbxark.RespData)
    (hok : (Rbxark.runWorker cm store req resp).1.err = none)
    (hex : req.flags &&& Rbxark.existsFlag ≠ 0) :
    (Rbxark.runWorker cm store req resp).1.flags &&& Rbxark.existsFlag ≠ 0 := by
  have hbitm : (req.flags % 256).testBit 1 = true := by
    rw [testBit_mod_256 _ _ (by norm_num)]
    rw [show Rbxark.existsFlag = 2 ^ 1 from rfl, and_two_pow_ne_zero_iff] at hex
    exact hex
  rw [show Rbxark.existsFlag = 2 ^ 1 from rfl, and_two_pow_ne_zero_iff]
  unfold Rbxark.runWorker at hok ⊢
  cases hTE : resp.transportErr with
  | some m =>
    rw [hTE] at hok
    simp at hok
  | none =>
    rw [hTE] at hok
    simp only [] at hok ⊢
    split_ifs at hok ⊢ with h2xx hcm h403
    · -- 2xx, content mode
      cases hSS : Rbxark.storeStat store
          (Rbxark.hashFromETag (resp.etag.getD [])) with
      | some sz =>
        simp only [Rbxark.clearNotFound, Rbxark.existsFlag,
          Rbxark.hasHeadersFlag, Rbxark.hasMetadataFlag,
          Rbxark.hasContentFlag, Nat.testBit_lor, Nat.testBit_land, hbitm]
        decide
      | none =>
        rw [hSS] at hok
        simp only [] at hok ⊢
        split
        · rename_i msg heq
          rw [heq] at hok
          simp at hok
        · simp only [Rbxark.clearNotFound, Rbxark.existsFlag,
            Rbxark.hasHeadersFlag, Rbxark.hasMetadataFlag,
            Rbxark.hasContentFlag, Nat.testBit_lor, Nat.testBit_land, hbitm]
          decide
    · -- 2xx, headers mode
      simp only [Rbxark.clearNotFound, Rbxark.existsFlag,
        Rbxark.hasHeadersFlag, Nat.testBit_lor, Nat.testBit_land, hbitm]
      decide
    · -- non-2xx, status differs from 403
      simp only [Rbxark.notFoundFlag, Rbxark.hasHeadersFlag,
        Nat.testBit_lor, hbitm]
      decide
    · -- non-2xx, status 403
      simp only [Rbxark.notFoundFlag, Nat.testBit_lor, hbitm]
      decide

/-- Witness for C8 at a 403 response on a file with `Missing` flags
(`NotFound|Exists` = 3). -/
theorem C8_exists_bit_preserved_witness :
    ((Rbxark.runWorker false Rbxark.emptyStore ⟨1, 3⟩
          { transportErr := none, status := 403, contentLength := none,
            lastModified := none, contentType := none, etag := none,
            body := [] }).1.err = none
        ∧ (3 : Nat) &&& Rbxark.existsFlag ≠ 0)
      ∧ (Rbxark.runWorker false Rbxark.emptyStore ⟨1, 3⟩
          { transportErr := none, status := 403, contentLength := none,
            lastModified := none, contentType := none, etag := none,
            body := [] }).1.flags &&& Rbxark.existsFlag ≠ 0 :=
  ⟨⟨by decide, by decide⟩,
    C8_exists_bit_preserved _ _ _ _ (by decide) (by decide)⟩

/-- Looking up the key just replaced or inserted. -/
theorem lookup_setAssoc (t : List (Nat × α)) (k : Nat) (v : α) :
    (Rbxark.setAssoc t k v).lookup k = some v := by
  induction t with
  | nil => simp [Rbxark.setAssoc, List.lookup]
  | cons p rest ih =>
    rcases p with ⟨k', v'⟩
    by_cases h : k' = k
    · subst h
      simp [Rbxark.setAssoc, List.lookup]
    · have hbeq : (k == k') = false := by
        simp only [beq_eq_false_iff_ne]
        exact fun hh => h hh.symm
      simp [Rbxark.setAssoc, h, List.lookup, hbeq, ih]

/-- C5: a worker observing a non-2xx response succeeds without touching
the object store; on 403 it only adds `NotFound` to the flags and the
commit leaves the headers table untouched; on any other non-2xx status it
adds `NotFound` and `HasHeaders` and the commit upserts a status-only
header row — a fresh row carries nothing but the status and a conflicting
row keeps every other column. -/
theorem C5_non2xx_classification (cm : Bool) (store : Rbxark.Store)
    (req : Rbxark.ReqEntry) (resp : Rbxark.RespData) (db : Rbxark.Db)
    (hTE : resp.transportErr = none)
    (h2xx : ¬(200 ≤ resp.status ∧ resp.status < 300)) :
    (Rbxark.runWorker cm store req resp).1.err = none
      ∧ (Rbxark.runWorker cm store req resp).2 = store
      ∧ (resp.status = 403 →
          (Rbxark.runWorker cm store req resp).1.flags
              = req.flags % 256 ||| Rbxark.notFoundFlag
            ∧ (Rbxark.applyEntry db (Rbxark.runWorker cm store req resp).1).headers
                = db.headers)
      ∧ (resp.status ≠ 403 →
          (Rbxark.runWorker cm store req resp).1.flags
              = req.flags % 256 ||| Rbxark.notFoundFlag ||| Rbxark.hasHeadersFlag
            ∧ (Rbxark.applyEntry db (Rbxark.runWorker cm store req resp).1).headers
                = Rbxark.upsertHeaderStatus db.headers req.id resp.status)
      ∧ (∀ t id status,
          (Rbxark.upsertHeaderStatus t id status).lookup id
            = some (match t.lookup id with
                    | some r => { r with status := status }
                    | none => { status := status })) := by
  have hgen : ∀ t id status,
      (Rbxark.upsertHeaderStatus t id status).lookup id
        = some (match t.lookup id with
                | some r => { r with status := status }
                | none => { status := status }) := by
    intro t id status
    unfold Rbxark.upsertHeaderStatus
    cases ht : t.lookup id with
    | some r => simp [lookup_setAssoc]
    | none => simp [lookup_setAssoc]
  unfold Rbxark.runWorker
  rw [hTE]
  simp only []
  rw [if_neg h2xx]
  by_cases h403 : resp.status = 403
  · rw [if_neg (not_not_intro h403)]
    refine ⟨rfl, rfl, fun _ => ⟨rfl, ?_⟩, fun hne => absurd h403 hne, hgen⟩
    simp [Rbxark.applyEntry, Rbxark.qHeaders, Rbxark.qHeaderStatus,
      Rbxark.qMetadata]
  · rw [if_pos h403]
    refine ⟨rfl, rfl, fun h => absurd h h403, fun _ => ⟨rfl, ?_⟩, hgen⟩
    simp [Rbxark.applyEntry, Rbxark.qHeaders, Rbxark.qHeaderStatus,
      Rbxark.qMetadata]
    split_ifs <;> rfl

/-- Witness for C5 at a concrete 500 response against a catalog that
already holds a full header row for the file (the upsert keeps the other
columns), plus the instantiated conclusion. -/
theorem C5_non2xx_classification_witness :
    let resp : Rbxark.RespData :=
      { transportErr := none, status := 500, contentLength := none,
        lastModified := none, contentType := none, etag := none, body := [] }
    let db : Rbxark.Db := ⟨[(2, 0)], [], []⟩
    (resp.transportErr = none ∧ ¬(200 ≤ resp.status ∧ resp.status < 300))
      ∧ ((Rbxark.runWorker false Rbxark.emptyStore ⟨2, 0⟩ resp).1.err = none
          ∧ (Rbxark.runWorker false Rbxark.emptyStore ⟨2, 0⟩ resp).2
              = Rbxark.emptyStore
          ∧ (resp.status = 403 →
              (Rbxark.runWorker false Rbxark.emptyStore ⟨2, 0⟩ resp).1.flags
                  = 0 % 256 ||| Rbxark.notFoundFlag
                ∧ (Rbxark.applyEntry db
                    (Rbxark.runWorker false Rbxark.emptyStore ⟨2, 0⟩
                      resp).1).headers = db.headers)
          ∧ (resp.status ≠ 403 →
              (Rbxark.runWorker false Rbxark.emptyStore ⟨2, 0⟩ resp).1.flags
                  = 0 % 256 ||| Rbxark.notFoundFlag ||| Rbxark.hasHeadersFlag
                ∧ (Rbxark.applyEntry db
                    (Rbxark.runWorker false Rbxark.emptyStore ⟨2, 0⟩
                      resp).1).headers
                  = Rbxark.upsertHeaderStatus db.headers 2 resp.status)
          ∧ (∀ t id status,
              (Rbxark.upsertHeaderStatus t id status).lookup id
                = some (match t.lookup id with
                        | some r => { r with status := status }
                        | none => { status := status }))) := by
  exact ⟨⟨rfl, by decide⟩,
    C5_non2xx_classification false Rbxark.emptyStore ⟨2, 0⟩ _ _ rfl (by decide)⟩


/-- An expression built from the node kinds the compiler handles that
references an identifier outside the allow-list or uses an unsupported
comparison operator always compiles to an error. -/
theorem asQuery_err_of_bad (vs : List String) :
    ∀ (e : Rbxark.FExpr) (st : Rbxark.QState),
      Rbxark.hasUnhandled e = false →
      (Rbxark.hasBadIdent vs e || Rbxark.hasUnsupportedOp e) = true →
      Rbxark.isErr (Rbxark.asQuery (some vs) e st) = true
  | .binary op x y, st, hu, hbad => by
    have hux : Rbxark.hasUnhandled x = false
        ∧ Rbxark.hasUnhandled y = false := by
      simpa [Rbxark.hasUnhandled, Bool.or_eq_false_iff] using hu
    cases hx : Rbxark.asQuery (some vs) x st with
    | error m => simp [Rbxark.asQuery, hx, Rbxark.isErr]
    | ok st1 =>
      cases hop : Rbxark.binOpSql op with
      | none => simp [Rbxark.asQuery, hx, hop, Rbxark.isErr]
      | some o =>
        have hxf : ¬((Rbxark.hasBadIdent vs x
            || Rbxark.hasUnsupportedOp x) = true) := by
          intro hc
          have := asQuery_err_of_bad vs x st hux.1 hc
          rw [hx] at this
          simp [Rbxark.isErr] at this
        have hopf : ¬(((op = Rbxark.FBinOp.lss ∨ op = Rbxark.FBinOp.gtr)
            ∨ op = Rbxark.FBinOp.leq) ∨ op = Rbxark.FBinOp.geq) := by
          intro hc
          rcases hc with ((h | h) | h) | h <;> subst h <;>
            simp [Rbxark.binOpSql] at hop
        have hyb : (Rbxark.hasBadIdent vs y
            || Rbxark.hasUnsupportedOp y) = true := by
          simp only [Rbxark.hasBadIdent, Rbxark.hasUnsupportedOp,
            Bool.or_eq_true] at hbad hxf ⊢
          push_neg at hxf
          rcases hbad with (h | h) | ((hop2 | h) | h)
          · exact absurd h hxf.1
          · exact Or.inl h
          · simp only [Bool.or_eq_true, decide_eq_true_eq] at hop2
            exact absurd hop2 hopf
          · exact absurd h (by simp [hxf.2])
          · exact Or.inr h
        have := asQuery_err_of_bad vs y { st1 with sql := st1.sql ++ o }
          hux.2 hyb
        simpa [Rbxark.asQuery, hx, hop] using this
  | .paren x, st, hu, hbad => by
    have hux : Rbxark.hasUnhandled x = false := by
      simpa [Rbxark.hasUnhandled] using hu
    simp only [Rbxark.hasBadIdent, Rbxark.hasUnsupportedOp] at hbad
    have := asQuery_err_of_bad vs x { st with sql := st.sql ++ "( " } hux hbad
    cases hx : Rbxark.asQuery (some vs) x { st with sql := st.sql ++ "( " } with
    | error m => simp [Rbxark.asQuery, hx, Rbxark.isErr]
    | ok st1 =>
      rw [hx] at this
      simp [Rbxark.isErr] at this
  | .unary op x, st, hu, hbad => by
    cases op with
    | other => simp [Rbxark.asQuery, Rbxark.isErr]
    | fnot =>
      have hux : Rbxark.hasUnhandled x = false := by
        simpa [Rbxark.hasUnhandled] using hu
      simp only [Rbxark.hasBadIdent, Rbxark.hasUnsupportedOp] at hbad
      have := asQuery_err_of_bad vs x { st with sql := st.sql ++ "NOT " }
        hux hbad
      simpa [Rbxark.asQuery] using this
  | .ident name, st, hu, hbad => by
    simp only [Rbxark.hasBadIdent, Rbxark.hasUnsupportedOp, Bool.or_false,
      Bool.and_eq_true, Bool.not_eq_true'] at hbad
    obtain ⟨hkw, hmem⟩ := hbad
    simp only [Bool.or_eq_false_iff, decide_eq_false_iff_not] at hkw
    obtain ⟨⟨h1, h2⟩, h3⟩ := hkw
    have hnm : ¬(name ∈ vs) := by simpa using hmem
    simp [Rbxark.asQuery, h1, h2, h3, hnm, Rbxark.isErr]
  | .lit kind value, st, hu, hbad => by
    simp [Rbxark.hasBadIdent, Rbxark.hasUnsupportedOp] at hbad
  | .unhandled children, st, hu, hbad => by
    simp [Rbxark.hasUnhandled] at hu

/-- The rule loop fails whenever any rule's expression is bad, provided
every rule is built from handled node kinds. -/
theorem asQueryRulesLoop_err_of_bad (vs : List String) :
    ∀ (rules : List Rbxark.FRule) (first : Bool) (st : Rbxark.QState),
      (∀ r ∈ rules, Rbxark.hasUnhandled r.expr = false) →
      (∃ r ∈ rules, (Rbxark.hasBadIdent vs r.expr
          || Rbxark.hasUnsupportedOp r.expr) = true) →
      Rbxark.isErr (Rbxark.asQueryRulesLoop (some vs) first st rules) = true := by
  intro rules
  induction rules with
  | nil =>
    intro first st _ h
    rcases h with ⟨r, hr, _⟩
    cases hr
  | cons r rest ih =>
    intro first st hhandled h
    cases hq : Rbxark.asQuery (some vs) r.expr
        (Rbxark.ruleStart first r.exclude st) with
    | error m => simp [Rbxark.asQueryRulesLoop, hq, Rbxark.isErr]
    | ok st3 =>
      rcases h with ⟨r', hr', hb⟩
      rcases List.mem_cons.mp hr' with rfl | hmem
      · have := asQuery_err_of_bad vs r'.expr
          (Rbxark.ruleStart first r'.exclude st)
          (hhandled r' (List.mem_cons_self r' rest)) hb
        rw [hq] at this
        simp [Rbxark.isErr] at this
      · have := ih false { st3 with sql := st3.sql ++ ") " }
          (fun r'' hr'' => hhandled r'' (List.mem_cons_of_mem r hr''))
          ⟨r', hmem, hb⟩
        simpa [Rbxark.asQueryRulesLoop, hq] using this

/-- C10 counterexample: the configured rule `include files : servr(1)`
parses to a call expression — a node kind `asQuery`'s type switch has no
case for — so although it references the out-of-allow-list identifier
`servr`, compilation succeeds and produces the fragment `AND ( ( ) )`:
the claim's universal rejection is false on the code. -/
theorem C10_unhandled_node_accepted_counterexample :
    Rbxark.hasBadIdent ["server", "build", "file"]
        (Rbxark.FExpr.unhandled [Rbxark.FExpr.ident "servr",
          Rbxark.FExpr.lit Rbxark.FLitKind.otherLit "1"]) = true
      ∧ Rbxark.filterAsQuery (some ["server", "build", "file"])
          [⟨false, Rbxark.FExpr.unhandled [Rbxark.FExpr.ident "servr",
            Rbxark.FExpr.lit Rbxark.FLitKind.otherLit "1"]⟩]
        = Except.ok ⟨"AND ( ( ) )", [], []⟩
      ∧ Rbxark.isErr (Rbxark.filterAsQuery (some ["server", "build", "file"])
          [⟨false, Rbxark.FExpr.unhandled [Rbxark.FExpr.ident "servr",
            Rbxark.FExpr.lit Rbxark.FLitKind.otherLit "1"]⟩]) = false := by
  refine ⟨by decide, by rfl, by rfl⟩

/-- C10 (amended): with a configured allow-list, compiling a rule set
whose expressions are built from the node kinds the compiler handles
(parentheses, logical NOT, binary operators, identifiers, basic literals)
fails with an error whenever an expression references an identifier
outside the allow-list or uses an unsupported comparison operator, and no
SQL fragment is produced (in the source, `AsQuery` returns the zero
`Query` alongside the error).  Expressions containing unhandled node
kinds fall outside this guarantee. -/
theorem C10_filter_rejects_bad_ident_and_op (vs : List String)
    (rules : List Rbxark.FRule)
    (hhandled : ∀ r ∈ rules, Rbxark.hasUnhandled r.expr = false)
    (h : ∃ r ∈ rules, Rbxark.hasBadIdent vs r.expr = true
          ∨ Rbxark.hasUnsupportedOp r.expr = true) :
    Rbxark.isErr (Rbxark.filterAsQuery (some vs) rules) = true := by
  have h' : ∃ r ∈ rules, (Rbxark.hasBadIdent vs r.expr
      || Rbxark.hasUnsupportedOp r.expr) = true := by
    rcases h with ⟨r, hr, hb⟩
    exact ⟨r, hr, Bool.or_eq_true _ _ ▸ by
      rcases hb with hb | hb
      · simp [hb]
      · simp [hb]⟩
  cases rules with
  | nil =>
    rcases h' with ⟨r, hr, _⟩
    cases hr
  | cons r rest =>
    have hloop := asQueryRulesLoop_err_of_bad vs (r :: rest) true
      ⟨"AND ( " ++ Rbxark.excludeOpeners rest, [], []⟩ hhandled h'
    cases hq : Rbxark.asQueryRulesLoop (some vs) true
        ⟨"AND ( " ++ Rbxark.excludeOpeners rest, [], []⟩ (r :: rest) with
    | error m => simp [Rbxark.filterAsQuery, hq, Rbxark.isErr]
    | ok st =>
      rw [hq] at hloop
      simp [Rbxark.isErr] at hloop

/-- Witness for the amended C10: allow-list `server, build, file`; one
rule with the misspelled identifier `servr`, one with `<`; both rules use
only handled node kinds. -/
theorem C10_filter_rejects_bad_ident_and_op_witness :
    ((∀ r ∈ [(⟨false, Rbxark.FExpr.binary Rbxark.FBinOp.eql
                (Rbxark.FExpr.ident "servr")
                (Rbxark.FExpr.lit Rbxark.FLitKind.strLit "\"x\"")⟩ :
              Rbxark.FRule),
            ⟨false, Rbxark.FExpr.binary Rbxark.FBinOp.lss
                (Rbxark.FExpr.ident "build")
                (Rbxark.FExpr.lit Rbxark.FLitKind.strLit "\"y\"")⟩],
        Rbxark.hasUnhandled r.expr = false)
      ∧ (∃ r ∈ [(⟨false, Rbxark.FExpr.binary Rbxark.FBinOp.eql
                (Rbxark.FExpr.ident "servr")
                (Rbxark.FExpr.lit Rbxark.FLitKind.strLit "\"x\"")⟩ :
              Rbxark.FRule),
            ⟨false, Rbxark.FExpr.binary Rbxark.FBinOp.lss
                (Rbxark.FExpr.ident "build")
                (Rbxark.FExpr.lit Rbxark.FLitKind.strLit "\"y\"")⟩],
        Rbxark.hasBadIdent ["server", "build", "file"] r.expr = true
          ∨ Rbxark.hasUnsupportedOp r.expr = true))
      ∧ Rbxark.isErr (Rbxark.filterAsQuery (some ["server", "build", "file"])
          [⟨false, Rbxark.FExpr.binary Rbxark.FBinOp.eql
              (Rbxark.FExpr.ident "servr")
              (Rbxark.FExpr.lit Rbxark.FLitKind.strLit "\"x\"")⟩,
           ⟨false, Rbxark.FExpr.binary Rbxark.FBinOp.lss
              (Rbxark.FExpr.ident "build")
              (Rbxark.FExpr.lit Rbxark.FLitKind.strLit "\"y\"")⟩]) = true :=
  ⟨⟨by decide, by decide⟩,
    C10_filter_rejects_bad_ident_and_op _ _ (by decide) (by decide)⟩

/-- Lowercasing maps a code point to `"` (34) only from `"` itself. -/
theorem toLowerN_eq_quote_iff (n : Nat) : Rbxark.toLowerN n = 34 ↔ n = 34 := by
  unfold Rbxark.toLowerN
  split <;> omega

/-- Lowercasing maps a code point to `-` (45) only from `-` itself. -/
theorem toLowerN_eq_dash_iff (n : Nat) : Rbxark.toLowerN n = 45 ↔ n = 45 := by
  unfold Rbxark.toLowerN
  split <;> omega

/-- Lowercasing maps a code point to `/` (47) only from `/` itself. -/
theorem toLowerN_eq_slash_iff (n : Nat) : Rbxark.toLowerN n = 47 ↔ n = 47 := by
  unfold Rbxark.toLowerN
  split <;> omega

/-- Lowercasing maps a code point to `w` (119) exactly from `w` or `W`. -/
theorem toLowerN_eq_w_iff (n : Nat) :
    Rbxark.toLowerN n = 119 ↔ n = 119 ∨ n = 87 := by
  unfold Rbxark.toLowerN
  split <;> omega

/-- Dropping leading quotes commutes with lowercasing. -/
theorem dropWhile_quote_lowerL (l : List Nat) :
    (Rbxark.lowerL l).dropWhile (fun c => c == 34)
      = Rbxark.lowerL (l.dropWhile (fun c => c == 34)) := by
  induction l with
  | nil => rfl
  | cons a l ih =>
    by_cases h : a = 34
    · subst h
      simpa [Rbxark.lowerL] using ih
    · have h' : ¬(Rbxark.toLowerN a = 34) := fun hc =>
        h ((toLowerN_eq_quote_iff a).mp hc)
      simp [Rbxark.lowerL, List.dropWhile_cons, h, h']

/-- Taking up to the first dash commutes with lowercasing. -/
theorem takeWhile_dash_lowerL (l : List Nat) :
    (Rbxark.lowerL l).takeWhile (fun c => !(c == 45))
      = Rbxark.lowerL (l.takeWhile (fun c => !(c == 45))) := by
  induction l with
  | nil => rfl
  | cons a l ih =>
    by_cases h : a = 45
    · subst h
      simp [Rbxark.lowerL, List.takeWhile_cons,
        show Rbxark.toLowerN 45 = 45 from rfl]
    · have h' : ¬(Rbxark.toLowerN a = 45) := fun hc =>
        h ((toLowerN_eq_dash_iff a).mp hc)
      simp only [Rbxark.lowerL] at ih
      simp [Rbxark.lowerL, List.takeWhile_cons, h, h', ih]

/-- Quote-trimming commutes with lowercasing. -/
theorem trimQuotes_lowerL (l : List Nat) :
    Rbxark.trimQuotes (Rbxark.lowerL l)
      = Rbxark.lowerL (Rbxark.trimQuotes l) := by
  unfold Rbxark.trimQuotes
  rw [dropWhile_quote_lowerL]
  rw [show (Rbxark.lowerL (l.dropWhile (fun c => c == 34))).reverse
        = Rbxark.lowerL ((l.dropWhile (fun c => c == 34)).reverse) from
      (List.map_reverse _ _).symm]
  rw [dropWhile_quote_lowerL]
  exact (List.map_reverse _ _).symm

/-- Cutting at the first dash commutes with lowercasing. -/
theorem cutDash_lowerL (l : List Nat) :
    Rbxark.cutDash (Rbxark.lowerL l) = Rbxark.lowerL (Rbxark.cutDash l) := by
  unfold Rbxark.cutDash
  exact takeWhile_dash_lowerL l

/-- The code's quoted-lowercased `w/` strip equals the spec's
case-insensitive `W/` strip followed by lowercasing. -/
theorem stripPrefixWSlash_lowerL (l : List Nat) :
    Rbxark.stripPrefixWSlash (Rbxark.lowerL l)
      = Rbxark.lowerL (Rbxark.stripWeakPrefixCI l) := by
  match l with
  | [] => rfl
  | [a] => rfl
  | a :: b :: rest =>
    by_cases h : (a = 119 ∨ a = 87) ∧ b = 47
    · obtain ⟨h1, h2⟩ := h
      subst h2
      have ha : Rbxark.toLowerN a = 119 := (toLowerN_eq_w_iff a).mpr h1
      simp [Rbxark.lowerL, Rbxark.stripPrefixWSlash, Rbxark.stripWeakPrefixCI,
        ha, h1, show Rbxark.toLowerN 47 = 47 from rfl]
    · have h' : ¬(Rbxark.toLowerN a = 119 ∧ Rbxark.toLowerN b = 47) := by
        intro hc
        exact h ⟨(toLowerN_eq_w_iff a).mp hc.1, (toLowerN_eq_slash_iff b).mp hc.2⟩
      simp [Rbxark.lowerL, Rbxark.stripPrefixWSlash, Rbxark.stripWeakPrefixCI,
        h, h']

/-- C4: `HashFromETag` — lowercase, strip the weak-validator prefix, trim
surrounding quotes, cut at the first dash, validate as 32 lowercase hex —
agrees on every input with the spec's wording of the same pipeline (strip
`W/` case-insensitively first, lowercase after cutting). -/
theorem C4_hashFromETag_matches_spec :
    ∀ l : List Nat, Rbxark.hashFromETag l = Rbxark.hashFromETagSpec l := by
  intro l
  have key : Rbxark.cutDash (Rbxark.trimQuotes
        (Rbxark.stripPrefixWSlash (Rbxark.lowerL l)))
      = Rbxark.lowerL (Rbxark.cutDash (Rbxark.trimQuotes
        (Rbxark.stripWeakPrefixCI l))) := by
    rw [stripPrefixWSlash_lowerL, trimQuotes_lowerL, cutDash_lowerL]
  unfold Rbxark.hashFromETag Rbxark.hashFromETagSpec
  simp only [key]

/-- The spec's round-trip examples for `hash_from_etag`: a weak quoted
ETag with a suffix, and mixed-case hex. -/
theorem hashFromETag_examples :
    Rbxark.hashFromETag
        (Rbxark.codes "W/\"D41D8CD98F00B204E9800998ECF8427E-2\"")
      = Rbxark.codes "d41d8cd98f00b204e9800998ecf8427e"
      ∧ Rbxark.hashFromETag (Rbxark.codes "\"not a hash\"") = []
      ∧ Rbxark.hashFromETag
          (Rbxark.codes "\"0123456789abcdef0123456789abcdef\"")
        = Rbxark.codes "0123456789abcdef0123456789abcdef" := by
  refine ⟨by decide, by decide, by decide⟩
